import Mathlib

/-!
Verification of the generate-post server (server.js).

The development shallowly embeds the request handler of
`POST /api/generate-post` and its response-normalization pipeline:

* `JsonVal` models the values `JSON.parse` can produce (numbers are
  modelled as integers; fractional parts never matter to any property
  verified here).
* `parseJson` models `JSON.parse` itself (returning `none` where the
  JavaScript call would throw a `SyntaxError`).
* `jsonStage` models the `try { JSON.parse ... } catch` block
  (lines 225-245): extraction of candidate variants, including the
  `TypeError`s that a `null` element or a truthy non-string `hook` /
  `caption` field raises inside the `try`, all of which land in the
  `catch` fallback.
* `repairVariant` models the clean-and-normalize `variants.map`
  (lines 248-268) and `normalize` the whole pipeline including the
  final empty-list default (lines 270-278).
* `handleGeneratePost` models the handler's guards, external call and
  success response (lines 59-302); the external completion call is an
  opaque collaborator, represented by an `ExtCall` argument.

String operations (`trim`, `split(...)[0]`, `slice`, `startsWith`,
`replace(/^#+/,"")`, `String(x)` coercion) are modelled over the
character lists of Lean strings.
-/

namespace SocialPoster

/-- JSON values as produced by `JSON.parse`.  Numbers are modelled as
integers; object fields keep their textual order. -/
inductive JsonVal where
  | null : JsonVal
  | bool (b : Bool) : JsonVal
  | num (n : Int) : JsonVal
  | str (s : String) : JsonVal
  | arr (xs : List JsonVal) : JsonVal
  | obj (fields : List (String × JsonVal)) : JsonVal

/-- Characters removed by JavaScript `String.prototype.trim` (the ASCII
white-space characters plus NBSP and BOM; other Unicode space
separators are not modelled). -/
def jsWs (c : Char) : Bool :=
  c = ' ' || c = '\t' || c = '\n' || c = '\r' || c = '\x0b' || c = '\x0c' ||
  c = '\xa0' || c = '\ufeff'

/-- Trim a character list on both ends, dropping `jsWs` characters. -/
def trimL (l : List Char) : List Char :=
  ((l.dropWhile jsWs).reverse.dropWhile jsWs).reverse

/-- Model of JavaScript `s.trim()`. -/
def jsTrim (s : String) : String :=
  ⟨trimL s.data⟩

/-- White-space accepted between JSON tokens. -/
def jsonWs (c : Char) : Bool :=
  c = ' ' || c = '\t' || c = '\n' || c = '\r'

/-- Skip inter-token white space. -/
def skipWs (l : List Char) : List Char :=
  l.dropWhile jsonWs

/-- Value of a hexadecimal digit. -/
def hexDigit (c : Char) : Option Nat :=
  if '0' ≤ c ∧ c ≤ '9' then some (c.toNat - 48)
  else if 'a' ≤ c ∧ c ≤ 'f' then some (c.toNat - 87)
  else if 'A' ≤ c ∧ c ≤ 'F' then some (c.toNat - 55)
  else none

/-- Single-character JSON string escapes. -/
def escChar (e : Char) : Option Char :=
  if e = '\"' then some '\"'
  else if e = '\\' then some '\\'
  else if e = '/' then some '/'
  else if e = 'b' then some '\x08'
  else if e = 'f' then some '\x0c'
  else if e = 'n' then some '\n'
  else if e = 'r' then some '\r'
  else if e = 't' then some '\t'
  else none

/-- Parse the body of a JSON string literal (the opening quote already
consumed); returns the decoded characters and the remaining input. -/
def parseStrL : List Char → Option (List Char × List Char)
  | [] => none
  | '\"' :: cs => some ([], cs)
  | '\\' :: e :: cs =>
    if e = 'u' then
      match cs with
      | a :: b :: c :: d :: cs2 =>
        match hexDigit a, hexDigit b, hexDigit c, hexDigit d with
        | some ha, some hb, some hc, some hd =>
          match parseStrL cs2 with
          | some (tl, rest) =>
            some (Char.ofNat (((ha * 16 + hb) * 16 + hc) * 16 + hd) :: tl, rest)
          | none => none
        | _, _, _, _ => none
      | _ => none
    else
      match escChar e with
      | some ch =>
        match parseStrL cs with
        | some (tl, rest) => some (ch :: tl, rest)
        | none => none
      | none => none
  | c :: cs =>
    match parseStrL cs with
    | some (tl, rest) => some (c :: tl, rest)
    | none => none

/-- Decimal value of a digit list. -/
def digitsToNat (l : List Char) : Nat :=
  l.foldl (fun acc c => acc * 10 + (c.toNat - 48)) 0

/-- Parse a JSON number (integers only; fractional and exponent forms
are outside the model). -/
def parseNumL (cs : List Char) : Option (JsonVal × List Char) :=
  let (neg, cs1) := match cs with
    | '-' :: rest => (true, rest)
    | _ => (false, cs)
  let ds := cs1.takeWhile Char.isDigit
  let rest := cs1.dropWhile Char.isDigit
  if ds.isEmpty then none
  else
    match rest with
    | '.' :: _ => none
    | 'e' :: _ => none
    | 'E' :: _ => none
    | _ =>
      let n : Int := (digitsToNat ds : Nat)
      some (.num (if neg then -n else n), rest)

mutual

/-- Fuel-indexed JSON value parsing; models `JSON.parse`, with `none`
standing for a thrown `SyntaxError`. -/
def parseVal : Nat → List Char → Option (JsonVal × List Char)
  | 0, _ => none
  | fuel + 1, cs =>
    match skipWs cs with
    | [] => none
    | c :: rest =>
      if c = '\x7b' then
        match skipWs rest with
        | '\x7d' :: rest2 => some (.obj [], rest2)
        | rest1 =>
          match parseMembers fuel rest1 with
          | some (fs, rest2) => some (.obj fs, rest2)
          | none => none
      else if c = '[' then
        match skipWs rest with
        | ']' :: rest2 => some (.arr [], rest2)
        | rest1 =>
          match parseItems fuel rest1 with
          | some (xs, rest2) => some (.arr xs, rest2)
          | none => none
      else if c = '\"' then
        match parseStrL rest with
        | some (chars, rest2) => some (.str ⟨chars⟩, rest2)
        | none => none
      else
        match c :: rest with
        | 't' :: 'r' :: 'u' :: 'e' :: r2 => some (.bool true, r2)
        | 'f' :: 'a' :: 'l' :: 's' :: 'e' :: r2 => some (.bool false, r2)
        | 'n' :: 'u' :: 'l' :: 'l' :: r2 => some (.null, r2)
        | l => parseNumL l

/-- Parse the members of a JSON object, positioned at a key string. -/
def parseMembers : Nat → List Char → Option (List (String × JsonVal) × List Char)
  | 0, _ => none
  | fuel + 1, cs =>
    match cs with
    | '\"' :: rest =>
      match parseStrL rest with
      | some (keyChars, rest2) =>
        match skipWs rest2 with
        | ':' :: rest3 =>
          match parseVal fuel rest3 with
          | some (v, rest4) =>
            match skipWs rest4 with
            | ',' :: rest5 =>
              match parseMembers fuel (skipWs rest5) with
              | some (fs, rest6) => some ((⟨keyChars⟩, v) :: fs, rest6)
              | none => none
            | '\x7d' :: rest5 => some ([(⟨keyChars⟩, v)], rest5)
            | _ => none
          | none => none
        | _ => none
      | none => none
    | _ => none

/-- Parse the items of a JSON array, positioned at the first value. -/
def parseItems : Nat → List Char → Option (List JsonVal × List Char)
  | 0, _ => none
  | fuel + 1, cs =>
    match parseVal fuel cs with
    | some (v, rest) =>
      match skipWs rest with
      | ',' :: rest2 =>
        match parseItems fuel (skipWs rest2) with
        | some (xs, rest3) => some (v :: xs, rest3)
        | none => none
      | ']' :: rest2 => some ([v], rest2)
      | _ => none
    | none => none

end

/-- Model of `JSON.parse raw`: `some` on success, `none` where the
JavaScript call throws. -/
def parseJson (s : String) : Option JsonVal :=
  match parseVal (s.length + 1) s.data with
  | some (v, rest) => if (skipWs rest).isEmpty then some v else none
  | none => none

/-- JavaScript truthiness of a property-access result (`none` is
`undefined`). -/
def jsTruthy : Option JsonVal → Bool
  | none => false
  | some .null => false
  | some (.bool b) => b
  | some (.num n) => n ≠ 0
  | some (.str s) => s ≠ ""
  | some (.arr _) => true
  | some (.obj _) => true

/-- Field lookup on a parsed JSON object; `JSON.parse` keeps the last
occurrence of a duplicated key. -/
def lookupField : List (String × JsonVal) → String → Option JsonVal
  | [], _ => none
  | (k, v) :: rest, key =>
    match lookupField rest key with
    | some w => some w
    | none => if k = key then some v else none

/-- Property access `v.key`: a `TypeError` (modelled as `Except.error`)
on `null`, the field on objects, `undefined` (`none`) elsewhere. -/
def getProp : JsonVal → String → Except Unit (Option JsonVal)
  | .null, _ => .error ()
  | .obj fs, key => .ok (lookupField fs key)
  | _, _ => .ok none

/-- Model of `(fv || "").trim()` on a field value: falsy values give the
empty string, truthy strings are trimmed, and calling `.trim()` on a
truthy non-string throws a `TypeError`. -/
def coerceField (fv : Option JsonVal) : Except Unit String :=
  if jsTruthy fv then
    match fv with
    | some (.str s) => .ok (jsTrim s)
    | _ => .error ()
  else .ok ""

/-- Model of `Array.isArray(v.hashtags) ? v.hashtags : []`. -/
def extractTags : Option JsonVal → List JsonVal
  | some (.arr xs) => xs
  | _ => []

/-- One element of the parsed `variants` array after the first mapping
pass (lines 230-234): trimmed string `hook` and `caption`, raw
`hashtags` values. -/
structure Candidate where
  hook : String
  caption : String
  hashtags : List JsonVal

/-- Map one element of `parsed.variants` to a candidate
(lines 230-234), propagating the `TypeError`s the JavaScript object
literal can raise. -/
def extractCandidate (v : JsonVal) : Except Unit Candidate :=
  match getProp v "hook" with
  | .error e => .error e
  | .ok hv =>
    match coerceField hv with
    | .error e => .error e
    | .ok hook =>
      match getProp v "caption" with
      | .error e => .error e
      | .ok cv =>
        match coerceField cv with
        | .error e => .error e
        | .ok caption =>
          match getProp v "hashtags" with
          | .error e => .error e
          | .ok tv => .ok ⟨hook, caption, extractTags tv⟩

/-- `parsed.variants.map(...)`: a thrown `TypeError` at any element
aborts the whole mapping. -/
def extractList : List JsonVal → Except Unit (List Candidate)
  | [] => .ok []
  | v :: vs =>
    match extractCandidate v with
    | .ok c =>
      match extractList vs with
      | .ok cs => .ok (c :: cs)
      | .error e => .error e
    | .error e => .error e

/-- Body of the `try` block after a successful parse: read
`parsed.variants` and, when it is an array, map its elements. -/
def extractAll (p : JsonVal) : Except Unit (List Candidate) :=
  match getProp p "variants" with
  | .error e => .error e
  | .ok (some (.arr vs)) => extractList vs
  | .ok _ => .ok []

/-- The `catch` fallback candidate (lines 238-244):
`{ hook: "", caption: raw || "New post coming soon!", hashtags: [] }`. -/
def fallbackCandidate (raw : String) : Candidate :=
  ⟨"", if raw = "" then "New post coming soon!" else raw, []⟩

/-- The whole `try`/`catch` block (lines 225-245).  `parsed = none`
models `JSON.parse` throwing; any `TypeError` inside the `try` also
lands in the `catch`. -/
def jsonStage (raw : String) (parsed : Option JsonVal) : List Candidate :=
  match parsed with
  | none => [fallbackCandidate raw]
  | some p =>
    match extractAll p with
    | .ok cs => cs
    | .error _ => [fallbackCandidate raw]

mutual

/-- JavaScript `String(x)` coercion of a JSON value. -/
def jsToString : JsonVal → String
  | .null => "null"
  | .bool true => "true"
  | .bool false => "false"
  | .num n => toString n
  | .str s => s
  | .arr xs => String.intercalate "," (jsArrParts xs)
  | .obj _ => "[object Object]"

/-- Parts of an array's `toString`: `null` elements become empty. -/
def jsArrParts : List JsonVal → List String
  | [] => []
  | .null :: xs => "" :: jsArrParts xs
  | x :: xs => jsToString x :: jsArrParts xs

end

/-- Characters of the hook-derivation split `caption.split(/[\n.!?]/)`. -/
def sentenceDelim (c : Char) : Bool :=
  c = '\n' || c = '.' || c = '!' || c = '?'

/-- `caption.split(/[\n.!?]/)[0].trim().slice(0, 120)` (lines 254-255). -/
def deriveHook (caption : String) : String :=
  ⟨(trimL (caption.data.takeWhile (fun c => !sentenceDelim c))).take 120⟩

/-- Model of `h.startsWith("#")`. -/
def jsStartsWithHash (h : String) : Bool :=
  match h.data with
  | c :: _ => c = '#'
  | [] => false

/-- `h.startsWith("#") ? h : "#" + h.replace(/^#+/, "")` (line 261). -/
def cleanTag (h : String) : String :=
  match h.data with
  | '#' :: _ => h
  | l => ⟨'#' :: l.dropWhile (fun c => c = '#')⟩

/-- A normalized post variant, the element shape of the success
response. -/
structure PostVariant where
  hook : String
  caption : String
  hashtags : List String
deriving DecidableEq

/-- The repaired caption of one candidate (lines 249-250):
`let caption = v.caption || "New post coming soon!"; caption.trim()`. -/
def repairCaption (c : Candidate) : String :=
  jsTrim (if c.caption = "" then "New post coming soon!" else c.caption)

/-- The hook after the derive-from-caption step (lines 252-256):
`let hook = (v.hook || "").trim(); if (!hook && caption) hook = ...`. -/
def repairHook1 (c : Candidate) : String :=
  if jsTrim c.hook = "" ∧ repairCaption c ≠ "" then deriveHook (repairCaption c)
  else jsTrim c.hook

/-- `cleanTags` (lines 258-261): coerce, trim, drop empties, prefix. -/
def cleanTags (hashtags : List JsonVal) : List String :=
  ((hashtags.map (fun h => jsTrim (jsToString h))).filter
    (fun s => s ≠ "")).map cleanTag

/-- The clean-and-normalize mapping of one candidate (lines 248-268). -/
def repairVariant (c : Candidate) : PostVariant :=
  ⟨if repairHook1 c = "" then "New results without extra risk." else repairHook1 c,
   repairCaption c, cleanTags c.hashtags⟩

/-- The default variant substituted for an empty list (lines 270-278). -/
def defaultVariant : PostVariant :=
  ⟨"New results without extra risk.", "New post coming soon!", []⟩

/-- The full Response Normalizer (lines 225-278) as a function of the
raw text and of the outcome of `JSON.parse` on it. -/
def normalize (raw : String) (parsed : Option JsonVal) : List PostVariant :=
  let vs := (jsonStage raw parsed).map repairVariant
  if vs.isEmpty then [defaultVariant] else vs

/-- The Response Normalizer applied to raw text, with `JSON.parse`
modelled by `parseJson`. -/
def normalizeText (raw : String) : List PostVariant :=
  normalize raw (parseJson raw)

/-- `chatResponse.choices?.[0]?.message?.content?.trim() || ""`
(line 223): a missing content is the empty string, a present one is
trimmed. -/
def rawText : Option String → String
  | none => ""
  | some s => jsTrim s

/-- `Math.min(Math.max(parseInt(variantsCount || 2, 10), 1), 3)`
(lines 89-92), for integer request values; the destructuring default
makes a missing field `2`, and `|| 2` sends the falsy `0` to `2` as
well. -/
def safeVariants (variantsCount : Option Int) : Int :=
  let v0 : Int := match variantsCount with
    | none => 2
    | some n => n
  let v1 : Int := if v0 = 0 then 2 else v0
  min (max v1 1) 3

/-- Goal directive lookup with fallback (lines 94-101). -/
def goalText (goal : String) : String :=
  if goal = "more_sales" then
    "focus strongly on driving sales and direct response"
  else if goal = "more_traffic" then
    "focus on driving clicks and traffic to the store"
  else if goal = "leads" then
    "focus on generating leads and conversations (DMs, email signups, calls)"
  else if goal = "awareness" then
    "focus on brand awareness, trust and positioning"
  else "focus on driving sales and qualified interest"

/-- Audience directive lookup with fallback (lines 103-113). -/
def audienceText (audience : String) : String :=
  if audience = "ecommerce_store_owners" then
    "You are talking directly to e-commerce store owners who care about consistent orders, profit, and low risk."
  else if audience = "local_business" then
    "You are talking to local business owners who want more bookings and walk-in customers."
  else if audience = "coaches_consultants" then
    "You are talking to coaches and consultants who want more high-quality clients."
  else if audience = "general" then
    "You are talking to online business owners and decision-makers."
  else "You are talking directly to e-commerce store owners."

/-- Style directive lookup with fallback (lines 127-134). -/
def styleText (style : String) : String :=
  if style = "social_post" then
    "Write it as a social media caption for feeds (Instagram/Facebook/TikTok). Short paragraphs, good line breaks, but still 8\u201314 sentences overall."
  else if style = "dm" then
    "Write it as a direct message (WhatsApp/DM style). Use a friendly greeting, shorter paragraphs, and make it feel 1:1 and personal."
  else if style = "email" then
    "Write it as an outreach email. Include a natural subject-style hook line (but still put everything in the caption field), a short greeting, body, and a clear sign-off."
  else "Write it as a social media caption for feeds."

/-- The request body of `POST /api/generate-post`; fields are `none`
when absent.  `topic` may be any JSON value, the others are modelled as
strings / integers / booleans, the shapes every verified property
uses. -/
structure ReqBody where
  topic : Option JsonVal := none
  platform : Option String := none
  tone : Option String := none
  language : Option String := none
  goal : Option String := none
  audience : Option String := none
  style : Option String := none
  variantsCount : Option Int := none
  includeUrgency : Option Bool := none
  includeSocialProof : Option Bool := none
  mentionAI : Option Bool := none

/-- Outcome of the external completion call: either it throws, or it
returns a message content (possibly missing). -/
inductive ExtCall where
  | throws (msg : String) : ExtCall
  | returns (content : Option String) : ExtCall

/-- The success response body (lines 280-291). -/
structure SuccessBody where
  topic : Option JsonVal
  platform : String
  tone : String
  language : String
  goal : String
  audience : String
  style : String
  variantsCount : Nat
  variants : List PostVariant

/-- An HTTP response of the handler; `res.json` without a status sends
200. -/
inductive HttpResponse where
  | failure (status : Nat) (error : String) : HttpResponse
  | success (body : SuccessBody) : HttpResponse

/-- Status code of a response. -/
def statusOf : HttpResponse → Nat
  | .failure s _ => s
  | .success _ => 200

/-- Success-body projection. -/
def getSuccessBody : HttpResponse → Option SuccessBody
  | .success sb => some sb
  | .failure _ _ => none

/-- Truthiness of the `OPENAI_API_KEY` environment value. -/
def keyTruthy : Option String → Bool
  | none => false
  | some s => s ≠ ""

/-- The `POST /api/generate-post` handler (lines 59-302): topic guard,
credential guard, external call, normalization, success response.  The
second component records whether the external completion call was
made. -/
def handleGeneratePost (apiKey : Option String) (b : ReqBody) (ext : ExtCall) :
    HttpResponse × Bool :=
  if jsTruthy b.topic = false then
    (.failure 400 "topic is required", false)
  else if keyTruthy apiKey = false then
    (.failure 500 "OPENAI_API_KEY is not set on the server.", false)
  else
    match ext with
    | .throws _ => (.failure 500 "Failed to generate post.", true)
    | .returns content =>
      let raw := rawText content
      let variants := normalizeText raw
      (.success
        { topic := b.topic
          platform := b.platform.getD "instagram"
          tone := b.tone.getD "friendly"
          language := b.language.getD "en"
          goal := b.goal.getD "more_sales"
          audience := b.audience.getD "ecommerce_store_owners"
          style := b.style.getD "social_post"
          variantsCount := variants.length
          variants := variants }, true)

/-- Modelled from the spec: a hashtag entry "starts with exactly one
`#` character" — written from the spec's words, to be compared with the
behavior of `cleanTag`. -/
def startsWithExactlyOneHash (s : String) : Bool :=
  match s.data with
  | '#' :: c :: _ => c ≠ '#'
  | ['#'] => true
  | _ => false

/-! ### Concrete test inputs -/

/-- The raw text of the spec's worked example (double-hash hashtag). -/
def c5raw : String :=
  "\x7b\"variants\":[\x7b\"hook\":\"\",\"caption\":\"Big sale today. Don\x27t miss it.\",\"hashtags\":[\"sale\",\"##deals\"]\x7d]\x7d"

/-- Raw text whose only variant carries the hashtag `##deals`. -/
def c2raw : String :=
  "\x7b\"variants\":[\x7b\"caption\":\"x\",\"hashtags\":[\"##deals\"]\x7d]\x7d"

/-- The raw text `\x7b\x7d`: a valid JSON object without `variants`. -/
def braceRaw : String := "\x7b\x7d"

/-- A 121-character hook string. -/
def longHook : String := ⟨List.replicate 121 'a'⟩

/-- A parsed payload whose variant supplies a 121-character hook. -/
def c3parsed : JsonVal :=
  .obj [("variants", .arr [.obj [("hook", .str longHook), ("caption", .str "c")]])]

/-- A parsed payload whose variant has a truthy non-string hook. -/
def c7parsed : JsonVal :=
  .obj [("variants", .arr [.obj [("hook", .num 5), ("caption", .str "hello")]])]

/-- A parsed payload with one well-behaved variant and one hashtag. -/
def c2parsed : JsonVal :=
  .obj [("variants", .arr [.obj [("caption", .str "x"),
    ("hashtags", .arr [.str "sale"])]])]

/-- A request whose `goal` holds an unrecognized value. -/
def c9body : ReqBody := { topic := some (.str "t"), goal := some "unknown_goal" }

/-! ### Auxiliary lemmas -/

/-- The head surviving a `dropWhile` fails the predicate. -/
theorem dropWhile_head?_false {α : Type} {p : α → Bool} :
    ∀ (l : List α) (a : α), (l.dropWhile p).head? = some a → p a = false := by
  intro l
  induction l with
  | nil => intro a h; simp [List.dropWhile] at h
  | cons hd tl ih =>
    intro a h
    rw [List.dropWhile_cons] at h
    by_cases hp : p hd = true
    · rw [if_pos hp] at h; exact ih a h
    · rw [if_neg hp] at h
      simp only [List.head?_cons, Option.some.injEq] at h
      subst h
      exact Bool.eq_false_iff.mpr hp

/-- A list whose head fails the predicate is unchanged by `dropWhile`. -/
theorem dropWhile_of_head_false {α : Type} {p : α → Bool} {l : List α} {a : α}
    (h : l.head? = some a) (hp : p a = false) : l.dropWhile p = l := by
  cases l with
  | nil => simp at h
  | cons hd tl =>
    simp only [List.head?_cons, Option.some.injEq] at h
    subst h
    rw [List.dropWhile_cons, if_neg (by simp [hp])]

/-- `dropWhile` is idempotent. -/
theorem dropWhile_dropWhile {α : Type} (p : α → Bool) (l : List α) :
    (l.dropWhile p).dropWhile p = l.dropWhile p := by
  cases h : l.dropWhile p with
  | nil => simp
  | cons a t =>
    have ha : p a = false := dropWhile_head?_false l a (by rw [h]; rfl)
    rw [← h]
    exact dropWhile_of_head_false (by rw [h]; rfl) ha

/-- A non-empty `dropWhile` result keeps the last element. -/
theorem getLast?_dropWhile {α : Type} (p : α → Bool) :
    ∀ (l : List α), l.dropWhile p ≠ [] → (l.dropWhile p).getLast? = l.getLast? := by
  intro l
  induction l with
  | nil => intro h; simp [List.dropWhile] at h
  | cons hd tl ih =>
    intro h
    rw [List.dropWhile_cons]
    rw [List.dropWhile_cons] at h
    by_cases hp : p hd = true
    · rw [if_pos hp] at h ⊢
      cases tl with
      | nil => simp [List.dropWhile] at h
      | cons b l2 =>
        rw [List.getLast?_cons_cons]
        exact ih h
    · rw [if_neg hp]

/-- Trimming on the character level is idempotent. -/
theorem trimL_idem (l : List Char) : trimL (trimL l) = trimL l := by
  unfold trimL
  set A := l.dropWhile jsWs with hA
  set R := A.reverse.dropWhile jsWs with hR
  have step1 : R.reverse.dropWhile jsWs = R.reverse := by
    by_cases hRnil : R = []
    · rw [hRnil]; rfl
    · have hAne : A ≠ [] := by
        intro hAnil
        apply hRnil
        rw [hR, hAnil]
        rfl
      obtain ⟨a0, ha0⟩ : ∃ a0, A.head? = some a0 := by
        cases hA2 : A with
        | nil => exact absurd hA2 hAne
        | cons x xs => exact ⟨x, rfl⟩
      have ha0f : jsWs a0 = false := dropWhile_head?_false l a0 (by rw [← hA]; exact ha0)
      have hhead : R.reverse.head? = some a0 := by
        rw [List.head?_reverse]
        rw [hR]
        rw [getLast?_dropWhile jsWs A.reverse (by rw [← hR]; exact hRnil)]
        rw [List.getLast?_reverse]
        exact ha0
      exact dropWhile_of_head_false hhead ha0f
  rw [step1, List.reverse_reverse, hR, dropWhile_dropWhile]

/-- `s.trim()` is idempotent. -/
theorem jsTrim_idem (s : String) : jsTrim (jsTrim s) = jsTrim s :=
  congrArg String.mk (trimL_idem s.data)

/-- The raw text handed to the normalizer is already trimmed. -/
theorem rawText_trimmed (content : Option String) :
    jsTrim (rawText content) = rawText content := by
  cases content with
  | none => decide
  | some s => exact jsTrim_idem s

/-- A string produced by the field coercion is empty or a trim. -/
theorem coerceField_shape {fv : Option JsonVal} {s : String}
    (h : coerceField fv = .ok s) : s = "" ∨ ∃ t, s = jsTrim t := by
  unfold coerceField at h
  split at h
  · split at h
    · cases h; exact Or.inr ⟨_, rfl⟩
    · cases h
  · cases h; exact Or.inl rfl

/-- A string produced by the field coercion is trimmed. -/
theorem coerceField_trimmed {fv : Option JsonVal} {s : String}
    (h : coerceField fv = .ok s) : jsTrim s = s := by
  rcases coerceField_shape h with rfl | ⟨t, rfl⟩
  · decide
  · exact jsTrim_idem t

/-- A candidate produced by `extractList` comes from `extractCandidate`. -/
theorem extractList_mem {vs : List JsonVal} {cs : List Candidate} {c : Candidate}
    (h : extractList vs = .ok cs) (hm : c ∈ cs) :
    ∃ v, extractCandidate v = .ok c := by
  induction vs generalizing cs with
  | nil =>
    simp only [extractList] at h
    cases h
    simp at hm
  | cons v vs ih =>
    cases hv : extractCandidate v with
    | error e => simp only [extractList, hv] at h; cases h
    | ok c0 =>
      cases hl : extractList vs with
      | error e => simp only [extractList, hv, hl] at h; cases h
      | ok cs0 =>
        simp only [extractList, hv, hl] at h
        cases h
        rcases List.mem_cons.mp hm with hc | hc
        · subst hc; exact ⟨v, hv⟩
        · exact ih hl hc

/-- A candidate produced by `extractAll` comes from `extractCandidate`. -/
theorem extractAll_mem {p : JsonVal} {cs : List Candidate} {c : Candidate}
    (h : extractAll p = .ok cs) (hm : c ∈ cs) :
    ∃ v, extractCandidate v = .ok c := by
  unfold extractAll at h
  split at h
  · cases h
  · exact extractList_mem h hm
  · cases h; simp at hm

/-- The caption of an extracted candidate is trimmed. -/
theorem extractCandidate_caption_trimmed {v : JsonVal} {c : Candidate}
    (h : extractCandidate v = .ok c) : jsTrim c.caption = c.caption := by
  unfold extractCandidate at h
  split at h
  · cases h
  · split at h
    · cases h
    · split at h
      · cases h
      · split at h
        · cases h
        · rename_i caption hcap
          split at h
          · cases h
          · cases h
            exact coerceField_trimmed hcap

/-- The caption of the `catch` fallback candidate is trimmed whenever
the raw text is. -/
theorem fallback_caption_trimmed {raw : String} (hraw : jsTrim raw = raw) :
    jsTrim (fallbackCandidate raw).caption = (fallbackCandidate raw).caption := by
  simp only [fallbackCandidate]
  split
  · decide
  · exact hraw

/-- Every candidate entering the repair stage has a trimmed caption,
provided the raw text is trimmed. -/
theorem jsonStage_caption_trimmed {raw : String} {parsed : Option JsonVal}
    {c : Candidate} (hraw : jsTrim raw = raw) (h : c ∈ jsonStage raw parsed) :
    jsTrim c.caption = c.caption := by
  unfold jsonStage at h
  split at h
  · rw [List.mem_singleton.mp h]
    exact fallback_caption_trimmed hraw
  · split at h
    · rename_i cs hall
      obtain ⟨v, hv⟩ := extractAll_mem hall h
      exact extractCandidate_caption_trimmed hv
    · rw [List.mem_singleton.mp h]
      exact fallback_caption_trimmed hraw

/-- The final hook substitution never yields the empty string. -/
theorem hook_fallback_ne (a : String) :
    (if a = "" then "New results without extra risk." else a) ≠ "" := by
  by_cases h : a = ""
  · rw [if_pos h]; decide
  · rw [if_neg h]; exact h

/-- The repaired hook is never empty. -/
theorem repairVariant_hook_ne (c : Candidate) : (repairVariant c).hook ≠ "" :=
  hook_fallback_ne _

/-- The repaired caption is non-empty for trimmed candidate captions. -/
theorem repairVariant_caption_ne {c : Candidate}
    (h : jsTrim c.caption = c.caption) : (repairVariant c).caption ≠ "" := by
  show jsTrim (if c.caption = "" then "New post coming soon!" else c.caption) ≠ ""
  by_cases hc : c.caption = ""
  · rw [if_pos hc]; decide
  · rw [if_neg hc, h]; exact hc

/-- The cleaned tag always starts with a `#`. -/
theorem cleanTag_hash (h : String) : jsStartsWithHash (cleanTag h) = true := by
  unfold cleanTag
  split
  · rename_i rest heq
    unfold jsStartsWithHash
    rw [heq]
    simp
  · unfold jsStartsWithHash
    dsimp only
    simp

/-- A tag that already starts with `#` is left unchanged. -/
theorem cleanTag_of_hash {s : String} (h : jsStartsWithHash s = true) :
    cleanTag s = s := by
  unfold jsStartsWithHash at h
  cases hd : s.data with
  | nil => rw [hd] at h; cases h
  | cons c rest =>
    rw [hd] at h
    dsimp only at h
    have hc : c = '#' := of_decide_eq_true h
    subst hc
    unfold cleanTag
    rw [hd]
    rfl

/-- Tag normalization is idempotent. -/
theorem cleanTag_idem (h : String) : cleanTag (cleanTag h) = cleanTag h :=
  cleanTag_of_hash (cleanTag_hash h)

/-- Every repaired hashtag starts with a `#`. -/
theorem repairVariant_tags_hash {c : Candidate} {t : String}
    (ht : t ∈ (repairVariant c).hashtags) : jsStartsWithHash t = true := by
  have ht' : t ∈ ((c.hashtags.map (fun h => jsTrim (jsToString h))).filter
      (fun s => s ≠ "")).map cleanTag := ht
  rcases List.mem_map.mp ht' with ⟨h0, _, rfl⟩
  exact cleanTag_hash h0

/-- The normalizer output is never empty. -/
theorem normalize_ne_nil (raw : String) (parsed : Option JsonVal) :
    normalize raw parsed ≠ [] := by
  unfold normalize
  dsimp only
  split
  · exact List.cons_ne_nil _ _
  · rename_i hne
    exact fun hnil => hne (by rw [hnil]; rfl)

/-- Every variant of the normalizer output is the default variant or
the repair of some candidate. -/
theorem normalize_mem {raw : String} {parsed : Option JsonVal} {v : PostVariant}
    (h : v ∈ normalize raw parsed) :
    v = defaultVariant ∨ ∃ c ∈ jsonStage raw parsed, v = repairVariant c := by
  unfold normalize at h
  dsimp only at h
  split at h
  · exact Or.inl (List.mem_singleton.mp h)
  · rcases List.mem_map.mp h with ⟨c, hc, rfl⟩
    exact Or.inr ⟨c, hc, rfl⟩

/-- A hook derived from the caption is truncated to 120 characters. -/
theorem deriveHook_len (s : String) : (deriveHook s).length ≤ 120 := by
  show ((trimL (s.data.takeWhile fun c => !sentenceDelim c)).take 120).length ≤ 120
  rw [List.length_take]
  exact min_le_left _ _

/-- When the supplied hook trims to empty, the repaired hook is at most
120 characters long. -/
theorem repairHook_short {c : Candidate} (h0 : jsTrim c.hook = "") :
    (repairVariant c).hook.length ≤ 120 := by
  show (if repairHook1 c = "" then "New results without extra risk."
    else repairHook1 c).length ≤ 120
  by_cases h1 : repairHook1 c = ""
  · rw [if_pos h1]; decide
  · rw [if_neg h1]
    unfold repairHook1
    by_cases hcap : repairCaption c ≠ ""
    · rw [if_pos ⟨h0, hcap⟩]
      exact deriveHook_len _
    · rw [if_neg fun hand => hcap hand.2, h0]
      decide

/-- When the supplied hook trims to a non-empty string, it is kept
verbatim (no truncation). -/
theorem repairHook_kept {c : Candidate} (h0 : jsTrim c.hook ≠ "") :
    (repairVariant c).hook = jsTrim c.hook := by
  show (if repairHook1 c = "" then "New results without extra risk."
    else repairHook1 c) = jsTrim c.hook
  have h1 : repairHook1 c = jsTrim c.hook := by
    unfold repairHook1
    rw [if_neg fun hand => h0 hand.1]
  rw [h1, if_neg h0]

/-! ### Claims -/

/-- Claim C1: for every raw text input (any message content, any
`JSON.parse` outcome) the Response Normalizer terminates in a
well-formed non-empty variant list — non-empty hook and caption, every
hashtag `#`-prefixed — and whenever the topic and credential guards
pass and the external call returns, the handler answers with a 200
success response carrying that non-empty list. -/
theorem normalizer_total_and_handler_success :
    (∀ (raw : String) (parsed : Option JsonVal), normalize raw parsed ≠ []) ∧
    (∀ (content : Option String) (parsed : Option JsonVal) (v : PostVariant),
      v ∈ normalize (rawText content) parsed →
        v.hook ≠ "" ∧ v.caption ≠ "" ∧ ∀ t ∈ v.hashtags, jsStartsWithHash t = true) ∧
    (∀ (apiKey : String) (b : ReqBody) (content : Option String),
      jsTruthy b.topic = true → apiKey ≠ "" →
        statusOf (handleGeneratePost (some apiKey) b (.returns content)).1 = 200 ∧
        ∃ sb, (handleGeneratePost (some apiKey) b (.returns content)).1 = .success sb ∧
          sb.variants ≠ []) := by
  refine ⟨fun raw parsed => normalize_ne_nil raw parsed, ?_, ?_⟩
  · intro content parsed v hv
    rcases normalize_mem hv with rfl | ⟨c, hc, rfl⟩
    · refine ⟨by decide, by decide, ?_⟩
      intro t ht
      simp [defaultVariant] at ht
    · exact ⟨repairVariant_hook_ne c,
        repairVariant_caption_ne (jsonStage_caption_trimmed (rawText_trimmed content) hc),
        fun t ht => repairVariant_tags_hash ht⟩
  · intro apiKey b content htopic hkey
    unfold handleGeneratePost
    rw [htopic]
    rw [if_neg (by decide : ¬(true = false))]
    have hk : keyTruthy (some apiKey) = true := by
      unfold keyTruthy
      exact decide_eq_true hkey
    rw [hk, if_neg (by decide : ¬(true = false))]
    exact ⟨rfl, _, rfl, normalize_ne_nil _ _⟩

/-- Witness for C1 at a concrete garbage payload. -/
theorem normalizer_total_and_handler_success_witness :
    normalize "not json" none ≠ [] ∧
    statusOf (handleGeneratePost (some "key") { topic := some (.str "t") }
      (.returns (some "garbage"))).1 = 200 :=
  ⟨normalizer_total_and_handler_success.1 "not json" none,
    (normalizer_total_and_handler_success.2.2 "key" { topic := some (.str "t") }
      (some "garbage") (by decide) (by decide)).1⟩

/-- Claim C2 counterexample: the tag `##deals` is passed through
unchanged by the normalizer (the `startsWith("#")` branch keeps it
verbatim), so it does not start with exactly one `#`. -/
theorem cleanTags_keep_double_hash :
    normalizeText c2raw = [⟨"x", "x", ["##deals"]⟩] ∧
    startsWithExactlyOneHash "##deals" = false :=
  ⟨rfl, rfl⟩

/-- Claim C2 (amended): every hashtag entry of every normalizer output
starts with at least one `#` (a tag already starting with `#` is kept
verbatim — including multi-`#` tags — and a tag without one gets a
single `#` prefixed), and the per-tag normalization is idempotent. -/
theorem tags_hash_prefixed_idempotent :
    (∀ (raw : String) (parsed : Option JsonVal) (v : PostVariant) (t : String),
      v ∈ normalize raw parsed → t ∈ v.hashtags → jsStartsWithHash t = true) ∧
    (∀ h : String, jsStartsWithHash h = true → cleanTag h = h) ∧
    (∀ h : String, cleanTag (cleanTag h) = cleanTag h) := by
  refine ⟨?_, fun h hh => cleanTag_of_hash hh, cleanTag_idem⟩
  intro raw parsed v t hv ht
  rcases normalize_mem hv with rfl | ⟨c, _, rfl⟩
  · simp [defaultVariant] at ht
  · exact repairVariant_tags_hash ht

/-- Witness for C2 (amended) at a concrete run. -/
theorem tags_hash_prefixed_idempotent_witness :
    jsStartsWithHash "#sale" = true ∧
    cleanTag (cleanTag "##deals") = cleanTag "##deals" :=
  ⟨tags_hash_prefixed_idempotent.1 "x" (some c2parsed) ⟨"x", "x", ["#sale"]⟩ "#sale"
      (by decide) (by decide),
    tags_hash_prefixed_idempotent.2.2 "##deals"⟩

/-- Claim C3 counterexample: a 121-character model-supplied hook is kept
verbatim, so the normalizer output violates the claimed 120-character
hook bound. -/
theorem long_supplied_hook_kept :
    normalize "c" (some c3parsed) = [⟨longHook, "c", []⟩] ∧
    120 < longHook.length :=
  ⟨rfl, by decide⟩

/-- Claim C3 (amended): every normalizer output has a non-empty hook
and a non-empty caption; the 120-character truncation applies exactly
when the supplied hook trims to empty (derived-from-caption case, with
the fixed placeholder as final fallback), while a non-empty supplied
hook is kept verbatim and may exceed 120 characters. -/
theorem hook_caption_nonempty_hook_bound :
    (∀ (content : Option String) (parsed : Option JsonVal) (v : PostVariant),
      v ∈ normalize (rawText content) parsed → v.hook ≠ "" ∧ v.caption ≠ "") ∧
    (∀ c : Candidate, jsTrim c.hook = "" → (repairVariant c).hook.length ≤ 120) ∧
    (∀ c : Candidate, jsTrim c.hook ≠ "" → (repairVariant c).hook = jsTrim c.hook) := by
  refine ⟨?_, fun c h0 => repairHook_short h0, fun c h0 => repairHook_kept h0⟩
  intro content parsed v hv
  rcases normalize_mem hv with rfl | ⟨c, hc, rfl⟩
  · exact ⟨by decide, by decide⟩
  · exact ⟨repairVariant_hook_ne c,
      repairVariant_caption_ne (jsonStage_caption_trimmed (rawText_trimmed content) hc)⟩

/-- Witness for C3 (amended) at concrete inputs. -/
theorem hook_caption_nonempty_hook_bound_witness :
    (repairVariant ⟨"", "Big sale today. Yes.", []⟩).hook.length ≤ 120 ∧
    (repairVariant ⟨longHook, "c", []⟩).hook = jsTrim longHook := by
  constructor
  · exact hook_caption_nonempty_hook_bound.2.1 ⟨"", "Big sale today. Yes.", []⟩ (by decide)
  · exact hook_caption_nonempty_hook_bound.2.2 ⟨longHook, "c", []⟩ (by decide)

/-- Claim C4 counterexample: on the raw text `\x7b\x7d` (a valid JSON
object without a `variants` array) the normalizer does NOT fall back to
a raw-text-caption variant: it yields the default variant, whose
caption is the fixed placeholder and not the (non-empty) raw text. -/
theorem no_variants_field_gives_default :
    parseJson braceRaw = some (.obj []) ∧
    normalizeText braceRaw = [defaultVariant] ∧
    defaultVariant.caption = "New post coming soon!" ∧
    braceRaw ≠ "" ∧
    defaultVariant.caption ≠ braceRaw :=
  ⟨rfl, rfl, rfl, by decide, by decide⟩

/-- Claim C4 (amended): the single synthetic variant with the raw text
as caption (placeholder when the raw text is empty) and empty hook and
hashtags arises exactly on the thrown paths — `JSON.parse` failing, or
a `TypeError` while reading `parsed.variants` off a `null` value; when
parsing succeeds on a non-`null` value whose `variants` field is
missing or not an array, the candidate list is empty and the final
default variant is substituted instead. -/
theorem parse_failure_fallback :
    (∀ raw : String, jsonStage raw none = [fallbackCandidate raw] ∧
      (fallbackCandidate raw).hook = "" ∧
      (fallbackCandidate raw).hashtags = [] ∧
      (fallbackCandidate raw).caption =
        (if raw = "" then "New post coming soon!" else raw)) ∧
    (∀ (raw : String) (p : JsonVal) (fo : Option JsonVal),
      getProp p "variants" = .ok fo → (∀ xs, fo ≠ some (.arr xs)) →
        jsonStage raw (some p) = [] ∧ normalize raw (some p) = [defaultVariant]) ∧
    (∀ raw : String, jsonStage raw (some .null) = [fallbackCandidate raw]) := by
  refine ⟨fun raw => ⟨rfl, rfl, rfl, rfl⟩, ?_, fun raw => rfl⟩
  intro raw p fo hgp hno
  have hall : extractAll p = .ok [] := by
    unfold extractAll
    rw [hgp]
    cases fo with
    | none => rfl
    | some jv =>
      cases jv with
      | null => rfl
      | bool b => rfl
      | num n => rfl
      | str s => rfl
      | arr xs => exact absurd rfl (hno xs)
      | obj fs => rfl
  have hstage : jsonStage raw (some p) = [] := by
    unfold jsonStage
    dsimp only
    rw [hall]
  refine ⟨hstage, ?_⟩
  unfold normalize
  rw [hstage]
  rfl

/-- Witness for C4 (amended) at concrete inputs. -/
theorem parse_failure_fallback_witness :
    jsonStage "oops" none = [fallbackCandidate "oops"] ∧
    normalize braceRaw (some (.obj [])) = [defaultVariant] := by
  constructor
  · exact (parse_failure_fallback.1 "oops").1
  · exact (parse_failure_fallback.2.1 braceRaw (.obj []) none rfl
      (fun xs h => by simp at h)).2

/-- Claim C5 counterexample: on the spec's worked example the
normalizer keeps `##deals` verbatim, so the hashtags are
`["#sale", "##deals"]` and not the claimed `["#sale", "#deals"]`. -/
theorem worked_example_double_hash :
    normalizeText c5raw =
      [⟨"Big sale today", "Big sale today. Don\x27t miss it.",
        ["#sale", "##deals"]⟩] ∧
    (["#sale", "##deals"] : List String) ≠ ["#sale", "#deals"] :=
  ⟨rfl, by decide⟩

/-- Claim C5 (amended): on the spec's worked example the normalizer
produces exactly one variant with hook `"Big sale today"` (derived from
the caption), the caption unchanged apart from trimming, and hashtags
`["#sale", "##deals"]` (the already-prefixed tag kept verbatim). -/
theorem worked_example_output :
    normalizeText c5raw =
      [⟨"Big sale today", "Big sale today. Don\x27t miss it.",
        ["#sale", "##deals"]⟩] :=
  rfl

/-- Claim C6 counterexample: the falsy input `0` is replaced by the
default `2` before clamping, so it does not yield the claimed `1`. -/
theorem variants_count_zero_gives_two :
    safeVariants (some 0) = 2 ∧ safeVariants (some 0) ≠ 1 := by
  decide

/-- Claim C6 (amended): every non-zero integer input is clamped into
[1,3] (10 yields 3, negatives yield 1), while the falsy input 0 — like
a missing field — is replaced by the default 2. -/
theorem variants_count_clamped :
    (∀ n : Int, n ≠ 0 → safeVariants (some n) = min (max n 1) 3) ∧
    safeVariants (some 10) = 3 ∧
    (∀ n : Int, n < 0 → safeVariants (some n) = 1) ∧
    safeVariants (some 0) = 2 ∧
    safeVariants none = 2 := by
  refine ⟨?_, by decide, ?_, by decide, by decide⟩
  · intro n hn
    unfold safeVariants
    dsimp only
    rw [if_neg hn]
  · intro n hn
    unfold safeVariants
    dsimp only
    rw [if_neg (by omega : ¬n = 0), max_eq_right (by omega : n ≤ 1)]
    decide

/-- Witness for C6 (amended) at concrete inputs. -/
theorem variants_count_clamped_witness :
    safeVariants (some 10) = min (max 10 1) 3 ∧ safeVariants (some (-5)) = 1 :=
  ⟨variants_count_clamped.1 10 (by decide),
    variants_count_clamped.2.2.1 (-5) (by decide)⟩

/-- Claim C7 counterexample: an element whose `hook` is the truthy
non-string `5` is not mapped to a candidate with an empty-string hook:
`(5).trim()` throws inside the `try`, so the whole list is replaced by
the `catch` fallback variant built from the raw text. -/
theorem truthy_nonstring_hook_falls_back :
    jsonStage "x" (some c7parsed) = [fallbackCandidate "x"] ∧
    (fallbackCandidate "x").caption = "x" ∧
    normalize "x" (some c7parsed) = [⟨"x", "x", []⟩] ∧
    ("x" : String) ≠ "hello" :=
  ⟨rfl, rfl, rfl, by decide⟩

/-- Claim C7 (amended): for every element of the `variants` array,
`hook` and `caption` default to the empty string when the field is
missing or falsy (and a truthy string is trimmed), `hashtags` defaults
to the empty sequence when missing or not an array — but a truthy
non-string `hook`/`caption` throws a `TypeError`, and any such throw
replaces the whole candidate list with the raw-text fallback variant. -/
theorem candidate_field_defaults :
    (∀ fv : Option JsonVal, jsTruthy fv = false → coerceField fv = .ok "") ∧
    (∀ tv : Option JsonVal, (∀ xs, tv ≠ some (.arr xs)) → extractTags tv = []) ∧
    (∀ fv : Option JsonVal, jsTruthy fv = true → (∀ s, fv ≠ some (.str s)) →
      coerceField fv = .error ()) ∧
    (∀ (raw : String) (p : JsonVal), extractAll p = .error () →
      jsonStage raw (some p) = [fallbackCandidate raw]) := by
  refine ⟨?_, ?_, ?_, ?_⟩
  · intro fv h
    unfold coerceField
    rw [h]
    rfl
  · intro tv h
    cases tv with
    | none => rfl
    | some jv =>
      cases jv with
      | null => rfl
      | bool b => rfl
      | num n => rfl
      | str s => rfl
      | arr xs => exact absurd rfl (h xs)
      | obj fs => rfl
  · intro fv h hs
    unfold coerceField
    rw [h]
    cases fv with
    | none => cases h
    | some jv =>
      cases jv with
      | null => rfl
      | bool b => rfl
      | num n => rfl
      | str s => exact absurd rfl (hs s)
      | arr xs => rfl
      | obj fs => rfl
  · intro raw p h
    unfold jsonStage
    dsimp only
    rw [h]

/-- Witness for C7 (amended) at concrete field values. -/
theorem candidate_field_defaults_witness :
    coerceField (some (.num 0)) = .ok "" ∧
    extractTags (some (.str "x")) = [] ∧
    coerceField (some (.num 5)) = .error () ∧
    jsonStage "x" (some .null) = [fallbackCandidate "x"] :=
  ⟨candidate_field_defaults.1 (some (.num 0)) (by decide),
    candidate_field_defaults.2.1 (some (.str "x")) (fun xs h => by simp at h),
    candidate_field_defaults.2.2.1 (some (.num 5)) (by decide) (fun s h => by simp at h),
    candidate_field_defaults.2.2.2 "x" .null rfl⟩

/-- Claim C8: a request whose topic is missing or the empty string is
answered with the 400 `topic is required` error, and the external
completion service is not called. -/
theorem missing_topic_rejected :
    ∀ (apiKey : Option String) (b : ReqBody) (ext : ExtCall),
      (b.topic = none ∨ b.topic = some (.str "")) →
      handleGeneratePost apiKey b ext = (.failure 400 "topic is required", false) := by
  intro apiKey b ext h
  have ht : jsTruthy b.topic = false := by
    rcases h with h | h <;> rw [h] <;> decide
  unfold handleGeneratePost
  rw [ht, if_pos rfl]

/-- Witness for C8 at a concrete request. -/
theorem missing_topic_rejected_witness :
    handleGeneratePost (some "k") {} (.throws "boom") =
      (.failure 400 "topic is required", false) :=
  missing_topic_rejected (some "k") {} (.throws "boom") (Or.inl rfl)

/-- Claim C9 counterexample: a request with the unrecognized goal value
`unknown_goal` is answered with a success body echoing `unknown_goal`
verbatim — the default `more_sales` is not applied to the echoed
parameter. -/
theorem unrecognized_goal_echoed :
    (getSuccessBody (handleGeneratePost (some "k") c9body
        (.returns (some "x"))).1).map (fun sb => sb.goal) = some "unknown_goal" ∧
    ("unknown_goal" : String) ≠ "more_sales" ∧
    ("unknown_goal" : String) ≠ "more_traffic" ∧
    ("unknown_goal" : String) ≠ "leads" ∧
    ("unknown_goal" : String) ≠ "awareness" :=
  ⟨rfl, by decide, by decide, by decide, by decide⟩

/-- Claim C9 (amended): the destructuring defaults apply only when a
field is absent — a present value, recognized or not, is echoed
verbatim in the success response — while the goal/audience/style
directive lookups fall back to a fixed default directive for every
unrecognized value. -/
theorem defaults_absent_only_echo_verbatim :
    (∀ (apiKey : Option String) (b : ReqBody) (content : Option String),
      jsTruthy b.topic = true → keyTruthy apiKey = true →
      ∃ sb, (handleGeneratePost apiKey b (.returns content)).1 = .success sb ∧
        sb.platform = b.platform.getD "instagram" ∧
        sb.tone = b.tone.getD "friendly" ∧
        sb.language = b.language.getD "en" ∧
        sb.goal = b.goal.getD "more_sales" ∧
        sb.audience = b.audience.getD "ecommerce_store_owners" ∧
        sb.style = b.style.getD "social_post") ∧
    (∀ g : String, g ≠ "more_sales" → g ≠ "more_traffic" → g ≠ "leads" →
      g ≠ "awareness" →
      goalText g = "focus on driving sales and qualified interest") ∧
    (∀ a : String, a ≠ "ecommerce_store_owners" → a ≠ "local_business" →
      a ≠ "coaches_consultants" → a ≠ "general" →
      audienceText a = "You are talking directly to e-commerce store owners.") ∧
    (∀ st : String, st ≠ "social_post" → st ≠ "dm" → st ≠ "email" →
      styleText st = "Write it as a social media caption for feeds.") := by
  refine ⟨?_, ?_, ?_, ?_⟩
  · intro apiKey b content htopic hkey
    unfold handleGeneratePost
    rw [htopic, if_neg (by decide : ¬(true = false))]
    rw [hkey, if_neg (by decide : ¬(true = false))]
    exact ⟨_, rfl, rfl, rfl, rfl, rfl, rfl, rfl⟩
  · intro g h1 h2 h3 h4
    unfold goalText
    rw [if_neg h1, if_neg h2, if_neg h3, if_neg h4]
  · intro a h1 h2 h3 h4
    unfold audienceText
    rw [if_neg h1, if_neg h2, if_neg h3, if_neg h4]
  · intro st h1 h2 h3
    unfold styleText
    rw [if_neg h1, if_neg h2, if_neg h3]

/-- Witness for C9 (amended) at concrete inputs. -/
theorem defaults_absent_only_echo_verbatim_witness :
    goalText "zzz" = "focus on driving sales and qualified interest" ∧
    audienceText "zzz" = "You are talking directly to e-commerce store owners." ∧
    styleText "zzz" = "Write it as a social media caption for feeds." ∧
    (getSuccessBody (handleGeneratePost (some "k") { topic := some (.str "t") }
        (.returns none)).1).map (fun sb => sb.goal) = some "more_sales" := by
  refine ⟨defaults_absent_only_echo_verbatim.2.1 "zzz"
      (by decide) (by decide) (by decide) (by decide),
    defaults_absent_only_echo_verbatim.2.2.1 "zzz"
      (by decide) (by decide) (by decide) (by decide),
    defaults_absent_only_echo_verbatim.2.2.2 "zzz"
      (by decide) (by decide) (by decide), ?_⟩
  obtain ⟨sb, hsb, hplat, htone, hlang, hgoal, haud, hsty⟩ :=
    defaults_absent_only_echo_verbatim.1 (some "k") { topic := some (.str "t") }
      none (by decide) (by decide)
  rw [hsb]
  dsimp only [getSuccessBody, Option.map]
  rw [hgoal]
  rfl

/-- Claim C10: the topic guard is JavaScript truthiness — every falsy
topic (missing, empty string, 0, false, null) is rejected with the 400
response and no external call, while every truthy topic (including a
whitespace-only string or the number 1) passes the guard and, with the
credential set, reaches the external call. -/
theorem topic_guard_truthiness :
    (∀ (apiKey : Option String) (b : ReqBody) (ext : ExtCall),
      jsTruthy b.topic = false →
        handleGeneratePost apiKey b ext = (.failure 400 "topic is required", false)) ∧
    (∀ (apiKey : Option String) (b : ReqBody) (ext : ExtCall),
      jsTruthy b.topic = true →
        (handleGeneratePost apiKey b ext).1 ≠ .failure 400 "topic is required" ∧
        (keyTruthy apiKey = true → (handleGeneratePost apiKey b ext).2 = true)) ∧
    jsTruthy (some (.str "   ")) = true ∧
    jsTruthy (some (.num 1)) = true ∧
    jsTruthy none = false ∧
    jsTruthy (some (.str "")) = false ∧
    jsTruthy (some (.num 0)) = false ∧
    jsTruthy (some (.bool false)) = false ∧
    jsTruthy (some .null) = false := by
  refine ⟨?_, ?_, by decide, by decide, by decide, by decide, by decide,
    by decide, by decide⟩
  · intro apiKey b ext ht
    unfold handleGeneratePost
    rw [ht, if_pos rfl]
  · intro apiKey b ext ht
    unfold handleGeneratePost
    rw [ht, if_neg (by decide : ¬(true = false))]
    by_cases hk : keyTruthy apiKey = false
    · rw [hk, if_pos rfl]
      constructor
      · intro h
        simp at h
      · intro htrue
        exact absurd htrue (by decide)
    · rw [if_neg hk]
      cases ext with
      | throws msg =>
        constructor
        · intro h
          simp at h
        · intro _
          rfl
      | returns content =>
        constructor
        · intro h
          cases h
        · intro _
          rfl

/-- Witness for C10 at concrete truthy and falsy topics. -/
theorem topic_guard_truthiness_witness :
    handleGeneratePost (some "k") { topic := some (.num 0) } (.returns none) =
      (.failure 400 "topic is required", false) ∧
    (handleGeneratePost (some "k") { topic := some (.str "   ") }
      (.returns none)).2 = true :=
  ⟨topic_guard_truthiness.1 (some "k") { topic := some (.num 0) }
      (.returns none) (by decide),
    (topic_guard_truthiness.2.1 (some "k") { topic := some (.str "   ") }
      (.returns none) (by decide)).2 (by decide)⟩

end SocialPoster
